import Mathlib

/-!
Verification of the override reconciliation engine
(`src/lib/task-validator.ts` of tarkov-data-overlay).

JSON-like runtime values are embedded as the inductive `Json`; a possibly
absent (JavaScript `undefined`) value is `Option Json` with `none` playing
the role of `undefined`.  Numbers are embedded as `Int`: every number the
validator ever compares is an integer and JavaScript renders integers in
plain decimal.  `JSON.stringify` is a faithful (injective) encoding of
finite JSON trees, so the source's serialized-string comparisons are
embedded as structural equality of the corresponding trees; the serializer
itself (`stringify`) is still embedded because `sortKey` orders composite
array elements by their serialized form.
-/

inductive Json where
  | null : Json
  | bool (b : Bool) : Json
  | num (n : Int) : Json
  | str (s : String) : Json
  | arr (elems : List Json) : Json
  | obj (fields : List (String × Json)) : Json
deriving Repr

namespace Json

/-- Constructor discriminant, used to settle equality of values whose head
constructors differ (and of the two nullary cases). -/
def ctorIdx : Json → Nat
  | .null => 0
  | .bool _ => 1
  | .num _ => 2
  | .str _ => 3
  | .arr _ => 4
  | .obj _ => 5

mutual

/-- Structural equality test on JSON trees. -/
def eqb : Json → Json → Bool
  | .bool a, .bool b => a == b
  | .num a, .num b => a == b
  | .str a, .str b => a == b
  | .arr a, .arr b => eqbArr a b
  | .obj a, .obj b => eqbObj a b
  | a, b => a.ctorIdx == b.ctorIdx

def eqbArr : List Json → List Json → Bool
  | [], [] => true
  | a :: as, b :: bs => eqb a b && eqbArr as bs
  | _, _ => false

def eqbObj : List (String × Json) → List (String × Json) → Bool
  | [], [] => true
  | a :: as, b :: bs => a.1 == b.1 && eqb a.2 b.2 && eqbObj as bs
  | _, _ => false

end

mutual

theorem eqb_eq : ∀ a b : Json, eqb a b = true ↔ a = b
  | .null, b => by cases b <;> simp [eqb, ctorIdx]
  | .bool x, b => by cases b <;> simp [eqb, ctorIdx]
  | .num x, b => by cases b <;> simp [eqb, ctorIdx]
  | .str x, b => by cases b <;> simp [eqb, ctorIdx]
  | .arr xs, b => by
    cases b with
    | arr ys => simpa [eqb] using eqbArr_eq xs ys
    | null => simp [eqb, ctorIdx]
    | bool y => simp [eqb, ctorIdx]
    | num y => simp [eqb, ctorIdx]
    | str y => simp [eqb, ctorIdx]
    | obj ys => simp [eqb, ctorIdx]
  | .obj fs, b => by
    cases b with
    | obj gs => simpa [eqb] using eqbObj_eq fs gs
    | null => simp [eqb, ctorIdx]
    | bool y => simp [eqb, ctorIdx]
    | num y => simp [eqb, ctorIdx]
    | str y => simp [eqb, ctorIdx]
    | arr ys => simp [eqb, ctorIdx]

theorem eqbArr_eq : ∀ xs ys : List Json, eqbArr xs ys = true ↔ xs = ys
  | [], [] => by simp [eqbArr]
  | [], _ :: _ => by simp [eqbArr]
  | _ :: _, [] => by simp [eqbArr]
  | x :: xs, y :: ys => by
    simp [eqbArr, eqb_eq x y, eqbArr_eq xs ys]

theorem eqbObj_eq : ∀ xs ys : List (String × Json), eqbObj xs ys = true ↔ xs = ys
  | [], [] => by simp [eqbObj]
  | [], _ :: _ => by simp [eqbObj]
  | _ :: _, [] => by simp [eqbObj]
  | x :: xs, y :: ys => by
    simp [eqbObj, eqb_eq x.2 y.2, eqbObj_eq xs ys, Prod.ext_iff, and_assoc]

end

instance : BEq Json := ⟨eqb⟩

instance : DecidableEq Json := fun a b =>
  decidable_of_iff (eqb a b = true) (eqb_eq a b)

end Json

/-- JavaScript property lookup `o[k]` on an object embedded as an association
list: the value at the first matching key, `none` standing for `undefined`. -/
def lookupField (fs : List (String × Json)) (k : String) : Option Json :=
  (fs.find? (fun p => p.1 == k)).map Prod.snd

/-- Single-quote a string the way the source's `formatValue` template does. -/
def squote (s : String) : String :=
  String.singleton (Char.ofNat 39) ++ s ++ String.singleton (Char.ofNat 39)

/-- JSON string quoting as `JSON.stringify` performs it (double quotes, with
backslash escapes for the characters the data at hand can contain). -/
def quoteStr (s : String) : String :=
  "\"" ++ String.join (s.data.map (fun c =>
    if c = Char.ofNat 92 then "\\\\"
    else if c = Char.ofNat 34 then "\\\""
    else if c = Char.ofNat 10 then "\\n"
    else if c = Char.ofNat 13 then "\\r"
    else if c = Char.ofNat 9 then "\\t"
    else String.singleton c)) ++ "\""

mutual

/-- `JSON.stringify` on the embedded JSON trees. -/
def stringify : Json → String
  | .null => "null"
  | .bool b => if b then "true" else "false"
  | .num n => toString n
  | .str s => quoteStr s
  | .arr xs => "[" ++ stringifyList xs ++ "]"
  | .obj fs => "\x7b" ++ stringifyFields fs ++ "\x7d"

def stringifyList : List Json → String
  | [] => ""
  | [x] => stringify x
  | x :: y :: xs => stringify x ++ "," ++ stringifyList (y :: xs)

def stringifyFields : List (String × Json) → String
  | [] => ""
  | [(k, v)] => quoteStr k ++ ":" ++ stringify v
  | (k, v) :: f :: fs => quoteStr k ++ ":" ++ stringify v ++ "," ++ stringifyFields (f :: fs)

end

/-- `sortKey` of task-validator.ts (the `undefined` branch is unreachable here:
sort keys are only derived for values that are present). -/
def sortKey : Json → String
  | .null => "null"
  | .bool b => if b then "true" else "false"
  | .num n => toString n
  | .str s => s
  | .arr xs => stringify (.arr xs)
  | .obj fs => stringify (.obj fs)

/-- Code-unit lexicographic order on character lists, the order JavaScript's
default sort comparator and `localeCompare` induce on the plain ASCII data
this validator handles. -/
def charListLt : List Char → List Char → Bool
  | [], [] => false
  | [], _ :: _ => true
  | _ :: _, [] => false
  | a :: as, b :: bs =>
    if a.toNat < b.toNat then true
    else if b.toNat < a.toNat then false
    else charListLt as bs

/-- String comparison by code units (kernel-computable). -/
def strLt (a b : String) : Bool := charListLt a.data b.data

/-- `s.toLowerCase()` on the ASCII data at hand (kernel-computable). -/
def toLowerStr (s : String) : String := ⟨s.data.map Char.toLower⟩

/-- `s.trim()`: strip leading and trailing whitespace (kernel-computable). -/
def trimStr (s : String) : String :=
  ⟨((s.data.dropWhile Char.isWhitespace).reverse.dropWhile Char.isWhitespace).reverse⟩

/-- Stable insertion of `a` in front of the first element whose key is not
smaller, embedding the (stable, ES2019) `Array.prototype.sort` comparator. -/
def insertByKey {α : Type} (key : α → String) (a : α) : List α → List α
  | [] => [a]
  | b :: l => if strLt (key b) (key a) then b :: insertByKey key a l else a :: b :: l

/-- Stable sort by a string-valued key (`.sort((a, b) => cmp(key a, key b))`). -/
def sortByKey {α : Type} (key : α → String) : List α → List α
  | [] => []
  | a :: l => insertByKey key a (sortByKey key l)

mutual

/-- `normalizeValue` of task-validator.ts: arrays are normalized elementwise
and then sorted by `sortKey`; objects have their keys sorted and their values
normalized; primitives pass through. -/
def normalizeValue : Json → Json
  | .arr xs => .arr (sortByKey sortKey (normalizeList xs))
  | .obj fs => .obj (sortByKey Prod.fst (normalizeFields fs))
  | v => v

def normalizeList : List Json → List Json
  | [] => []
  | x :: xs => normalizeValue x :: normalizeList xs

def normalizeFields : List (String × Json) → List (String × Json)
  | [] => []
  | (k, v) :: fs => (k, normalizeValue v) :: normalizeFields fs

end

/-- `valuesEqual` of task-validator.ts.  The source compares
`JSON.stringify(normalizeValue a)` with `JSON.stringify(normalizeValue b)`;
serialization is injective on JSON trees, so this is structural equality of
the normalized trees, with the `undefined`/`undefined` case answered first
and a mixed defined/`undefined` pair never serializing equal. -/
def valuesEqual : Option Json → Option Json → Bool
  | none, none => true
  | some a, some b => normalizeValue a == normalizeValue b
  | _, _ => false

mutual

/-- `compareSubset` on a present patch value: a plain mapping requires the
canonical side to be a plain mapping and recurses key by key; every other
shape (primitive, array, `null`) falls back to `valuesEqual`. -/
def compareSubsetVal : Json → Option Json → Bool
  | .obj fs, some (.obj afs) => compareSubsetFields fs afs
  | .obj _, _ => false
  | v, api => valuesEqual (some v) api

def compareSubsetFields : List (String × Json) → List (String × Json) → Bool
  | [], _ => true
  | (k, v) :: fs, afs => compareSubsetVal v (lookupField afs k) && compareSubsetFields fs afs

end

/-- `compareSubset` of task-validator.ts (`none` = `undefined`). -/
def compareSubset : Option Json → Option Json → Bool
  | none, _ => true
  | some v, api => compareSubsetVal v api

/-- Status of a single Field Detail (`ValidationDetail.status` of types.ts). -/
inductive DetailStatus where
  | needed : DetailStatus
  | fixed : DetailStatus
  | check : DetailStatus
  | info : DetailStatus
deriving Repr, DecidableEq

/-- `ValidationStatus` of types.ts. -/
inductive ValidationStatus where
  | NEEDED : ValidationStatus
  | FIXED : ValidationStatus
  | NOT_FOUND : ValidationStatus
  | REMOVED_FROM_API : ValidationStatus
deriving Repr, DecidableEq

/-- `ValidationDetail` of types.ts. -/
structure ValidationDetail where
  field : String
  status : DetailStatus
  message : String
deriving Repr, DecidableEq

/-- `ValidationResult` of types.ts. -/
structure ValidationResult where
  id : String
  name : String
  status : ValidationStatus
  stillNeeded : Bool
  details : List ValidationDetail
deriving Repr, DecidableEq

/-- `TaskRequirement` of types.ts: `task.id` (required by the declared type)
plus the optional `status` string list. -/
structure TaskRequirement where
  taskId : String
  status : Option (List String)
deriving Repr, DecidableEq

/-- The two fields of an `ObjectiveAdd` entry the validator reads. -/
structure ObjectiveAdd where
  id : String
  description : String
deriving Repr, DecidableEq

/-- An objective (or objective override) as the validator sees it: a plain
field map, accessed generically (`(apiObj as Record<string, unknown>)[field]`,
`objective.maps`, `o.id`, `o.description`). -/
abbrev JsonObj := List (String × Json)

/-- `TaskOverride` of types.ts, restricted to the shapes the validator
inspects: fields that are only ever passed to `compareSubset` are kept as
raw `Option Json`; structurally inspected fields are typed. -/
structure TaskOverride where
  name : Option Json := none
  minPlayerLevel : Option Json := none
  wikiLink : Option Json := none
  disabled : Option Bool := none
  map : Option Json := none
  kappaRequired : Option Json := none
  lightkeeperRequired : Option Json := none
  factionName : Option Json := none
  requiredPrestige : Option Json := none
  objectives : Option (List (String × JsonObj)) := none
  objectivesAdd : Option (List ObjectiveAdd) := none
  taskRequirements : Option (List TaskRequirement) := none
  traderRequirements : Option Json := none
  experience : Option Json := none
  startRewards : Option Json := none
  finishRewards : Option Json := none
deriving Repr, DecidableEq

/-- `TaskData` of types.ts, same representation conventions as
`TaskOverride`; `id` and `name` are required by the declared type. -/
structure TaskData where
  id : String
  name : String
  minPlayerLevel : Option Json := none
  wikiLink : Option Json := none
  map : Option Json := none
  factionName : Option Json := none
  requiredPrestige : Option Json := none
  taskRequirements : Option (List TaskRequirement) := none
  objectives : Option (List JsonObj) := none
  experience : Option Json := none
  startRewards : Option Json := none
  finishRewards : Option Json := none
deriving Repr, DecidableEq

/-- Read a string-typed field of an objective; `none` when the field is
absent or not a string (a JavaScript `x === s` against `undefined` or a
non-string is `false`). -/
def objStr (o : JsonObj) (k : String) : Option String :=
  match lookupField o k with
  | some (.str s) => some s
  | _ => none

/-- `objective.maps ?? []`, the maps list of an objective-like record. -/
def objMaps (o : JsonObj) : List Json :=
  match lookupField o "maps" with
  | some (.arr ms) => ms
  | _ => []

/-- `MAP_NAME_ALIASES` of task-validator.ts. -/
def MAP_NAME_ALIASES : List (String × String) :=
  [("night factory", "Factory"), ("ground zero 21+", "Ground Zero")]

/-- `canonicalMapKey` of task-validator.ts: prefer the trimmed name (through
the alias table, keyed by its lowercasing), fall back to the id, `none` when
the reference is absent or carries neither. -/
def canonicalMapKey (m : Json) : Option String :=
  match m with
  | .obj fs =>
    let idv : Option String :=
      match lookupField fs "id" with
      | some (.str s) => some s
      | _ => none
    match lookupField fs "name" with
    | some (.str s) =>
      let nm := trimStr s
      if nm = "" then idv
      else
        match MAP_NAME_ALIASES.find? (fun p => p.1 == toLowerStr nm) with
        | some p => some p.2
        | none => some nm
    | _ => idv
  | _ => none

/-- `collectObjectiveMapKeys` of task-validator.ts, as the insertion-ordered
list of the keys added to the set (truthiness of `if (key)` drops the empty
string); only membership and cardinality of this list are ever used. -/
def collectObjectiveMapKeys (objectives : List JsonObj) : List String :=
  objectives.flatMap (fun o =>
    (objMaps o).filterMap (fun m =>
      match canonicalMapKey m with
      | some k => if k = "" then none else some k
      | none => none))

/-- `hasMultipleObjectiveMaps` of task-validator.ts: more than one distinct
canonical map key across the API task's objectives and the override's
objective patches. -/
def hasMultipleObjectiveMaps (override : TaskOverride) (apiTask : TaskData) : Bool :=
  let apiObjectives := apiTask.objectives.getD []
  let overrideObjectives := (override.objectives.getD []).map Prod.snd
  ((collectObjectiveMapKeys apiObjectives ++ collectObjectiveMapKeys overrideObjectives).dedup).length > 1

/-- `formatValue` of task-validator.ts on a present value. -/
def formatValue : Json → String
  | .null => "null"
  | .str s => squote s
  | .bool b => if b then "true" else "false"
  | .num n => toString n
  | .arr xs => stringify (.arr xs)
  | .obj fs => stringify (.obj fs)

/-- `formatValue` including the `undefined` case. -/
def formatOpt : Option Json → String
  | none => "undefined"
  | some v => formatValue v

/-- `createFieldValidator` of task-validator.ts: `field` is the property
name, `getO`/`getA` embed the property accesses `override[field]` and
`apiTask[field]`. -/
def createFieldValidator (field : String) (getO : TaskOverride → Option Json)
    (getA : TaskData → Option Json) :
    TaskOverride → TaskData → Option ValidationDetail :=
  fun override apiTask =>
    match getO override with
    | none => none
    | some overrideValue =>
      let apiValue := getA apiTask
      let isMatch := compareSubset (some overrideValue) apiValue
      some
        { field := field
          status := if isMatch then .fixed else .needed
          message :=
            if isMatch then field ++ ": " ++ formatOpt apiValue ++ " - FIXED IN API"
            else
              field ++ ": API=" ++ formatOpt apiValue ++ ", Override=" ++
                formatValue overrideValue ++ " - STILL NEEDED" }

/-- `validateMap` of task-validator.ts. -/
def validateMap : TaskOverride → TaskData → Option ValidationDetail :=
  fun override apiTask =>
    let overrideValue := override.map
    let apiValue := apiTask.map
    let hasMultiMaps := hasMultipleObjectiveMaps override apiTask
    if hasMultiMaps then
      match overrideValue with
      | none =>
        if apiValue = some .null ∨ apiValue = none then none
        else
          some
            { field := "map", status := .needed
              message :=
                "map: task has multiple objective maps; add map: null to clear top-level map (API=" ++
                  formatOpt apiValue ++ ") - STILL NEEDED" }
      | some ov =>
        if ov = .null then
          let isMatch := compareSubset (some ov) apiValue
          some
            { field := "map", status := if isMatch then .fixed else .needed
              message :=
                if isMatch then "map: null - FIXED IN API"
                else "map: API=" ++ formatOpt apiValue ++ ", Override=null - STILL NEEDED" }
        else
          some
            { field := "map", status := .needed
              message :=
                "map: task has multiple objective maps; override should be null (API=" ++
                  formatOpt apiValue ++ ", Override=" ++ formatValue ov ++ ") - STILL NEEDED" }
    else
      match overrideValue with
      | none => none
      | some ov =>
        let isMatch := compareSubset (some ov) apiValue
        some
          { field := "map", status := if isMatch then .fixed else .needed
            message :=
              if isMatch then "map: " ++ formatOpt apiValue ++ " - FIXED IN API"
              else
                "map: API=" ++ formatOpt apiValue ++ ", Override=" ++ formatValue ov ++
                  " - STILL NEEDED" }

/-- The status filter of `validateTaskRequirements`: an entry whose `status`
contains (after trim and lowercase) `active` or `accepted`. -/
def hasActiveStatus (r : TaskRequirement) : Bool :=
  (r.status.getD []).any (fun s =>
    toLowerStr (trimStr s) == "active" || toLowerStr (trimStr s) == "accepted")

/-- The canonical requirement entries `validateTaskRequirements` keeps:
`(apiTask.taskRequirements || []).filter(...)`. -/
def filteredApiReqs (apiTask : TaskData) : List TaskRequirement :=
  (apiTask.taskRequirements.getD []).filter (fun r => !hasActiveStatus r)

/-- `.map(r => r.task?.id).sort()` on a requirement list. -/
def sortedReqIds (reqs : List TaskRequirement) : List String :=
  sortByKey (fun s => s) (reqs.map (fun r => r.taskId))

/-- `validateTaskRequirements` of task-validator.ts.  The source compares
`JSON.stringify` of the two sorted id arrays; serialization is injective on
string arrays, so the comparison is embedded as list equality. -/
def validateTaskRequirements : TaskOverride → TaskData → Option ValidationDetail :=
  fun override apiTask =>
    match override.taskRequirements with
    | none => none
    | some overrideReqs =>
      let apiReqs := filteredApiReqs apiTask
      if apiReqs.length = 0 ∧ overrideReqs.length > 0 then
        some
          { field := "taskRequirements", status := .needed
            message :=
              "taskRequirements: API=[] (empty), Override has " ++
                toString overrideReqs.length ++ " requirement(s) - STILL NEEDED" }
      else if apiReqs.length > 0 then
        let apiReqIds := sortedReqIds apiReqs
        let overrideReqIds := sortedReqIds overrideReqs
        if apiReqIds ≠ overrideReqIds then
          some
            { field := "taskRequirements", status := .needed
              message :=
                "taskRequirements: API has different requirements (" ++
                  String.intercalate ", " apiReqIds ++ ") vs Override (" ++
                  String.intercalate ", " overrideReqIds ++ ") - NEEDS REVIEW" }
        else
          some
            { field := "taskRequirements", status := .fixed
              message := "taskRequirements: FIXED IN API" }
      else none

/-- `FIELD_VALIDATORS` of task-validator.ts, in source order. -/
def FIELD_VALIDATORS : List (TaskOverride → TaskData → Option ValidationDetail) :=
  [ createFieldValidator "minPlayerLevel" (fun o => o.minPlayerLevel) (fun t => t.minPlayerLevel),
    createFieldValidator "name" (fun o => o.name) (fun t => some (.str t.name)),
    createFieldValidator "wikiLink" (fun o => o.wikiLink) (fun t => t.wikiLink),
    validateMap,
    createFieldValidator "experience" (fun o => o.experience) (fun t => t.experience),
    createFieldValidator "startRewards" (fun o => o.startRewards) (fun t => t.startRewards),
    createFieldValidator "finishRewards" (fun o => o.finishRewards) (fun t => t.finishRewards),
    createFieldValidator "factionName" (fun o => o.factionName) (fun t => t.factionName),
    createFieldValidator "requiredPrestige" (fun o => o.requiredPrestige)
      (fun t => t.requiredPrestige),
    validateTaskRequirements ]

/-- The nested-objective walk of `validateTaskOverride` (the loop over
`Object.entries(override.objectives)`). -/
def objectiveDetails (override : TaskOverride) (apiTask : TaskData) : List ValidationDetail :=
  match override.objectives with
  | none => []
  | some objs =>
    objs.flatMap (fun p =>
      match (apiTask.objectives.getD []).find? (fun o => objStr o "id" == some p.1) with
      | none =>
        [{ field := "objective:" ++ p.1, status := .check
           message := "objective " ++ p.1 ++ ": Not found in API - CHECK MANUALLY" }]
      | some apiObj =>
        p.2.map (fun fv =>
          let apiValue := lookupField apiObj fv.1
          let isMatch := compareSubset (some fv.2) apiValue
          { field := "objective:" ++ p.1 ++ ":" ++ fv.1
            status := if isMatch then .fixed else .needed
            message :=
              if isMatch then
                "objective " ++ fv.1 ++ ": " ++ formatOpt apiValue ++ " - FIXED IN API"
              else
                "objective " ++ fv.1 ++ ": API=" ++ formatOpt apiValue ++ ", Override=" ++
                  formatValue fv.2 ++ " - STILL NEEDED" }))

/-- The added-objective walk of `validateTaskOverride` (the loop over
`override.objectivesAdd`). -/
def objectivesAddDetails (override : TaskOverride) (apiTask : TaskData) : List ValidationDetail :=
  match override.objectivesAdd with
  | none => []
  | some adds =>
    adds.map (fun added =>
      let key := if added.id ≠ "" then added.id else added.description
      match (apiTask.objectives.getD []).find?
          (fun o => objStr o "id" == some added.id || objStr o "description" == some added.description) with
      | some _ =>
        { field := "objectivesAdd:" ++ key, status := .fixed
          message :=
            "added objective " ++ squote added.description ++
              ": NOW IN API - MOVE TO OBJECTIVES OR REMOVE" }
      | none =>
        { field := "objectivesAdd:" ++ key, status := .needed
          message :=
            "added objective " ++ squote added.description ++
              ": Still missing from API - STILL NEEDED" })

/-- `validateTaskOverride` of task-validator.ts. -/
def validateTaskOverride (taskId : String) (override : TaskOverride)
    (apiTasks : List TaskData) : ValidationResult :=
  match apiTasks.find? (fun t => t.id == taskId) with
  | none =>
    { id := taskId, name := "Unknown", status := .REMOVED_FROM_API, stillNeeded := false
      details :=
        [{ field := "task", status := .info
           message := "Task not found in API - has been removed from tarkov.dev" }] }
  | some apiTask =>
    if override.disabled = some true then
      { id := taskId, name := apiTask.name, status := .NEEDED, stillNeeded := true
        details :=
          [{ field := "disabled", status := .check
             message :=
               "disabled: task still present in API - verify removal from gameplay or keep override if intentional" }] }
    else
      let details :=
        FIELD_VALIDATORS.filterMap (fun v => v override apiTask) ++
          objectiveDetails override apiTask ++ objectivesAddDetails override apiTask
      let needsOverride := details.any (fun d => d.status == .needed || d.status == .check)
      { id := taskId, name := apiTask.name
        status := if needsOverride then .NEEDED else .FIXED
        stillNeeded := needsOverride, details := details }

/-- `validateAllOverrides` of task-validator.ts (a `Record` is embedded as an
insertion-ordered association list). -/
def validateAllOverrides (overrides : List (String × TaskOverride))
    (apiTasks : List TaskData) : List ValidationResult :=
  overrides.map (fun p => validateTaskOverride p.1 p.2 apiTasks)

/-- The record returned by `categorizeResults`. -/
structure CategorizedResults where
  stillNeeded : List ValidationResult
  fixed : List ValidationResult
  removedFromApi : List ValidationResult
deriving Repr

/-- `categorizeResults` of task-validator.ts. -/
def categorizeResults (results : List ValidationResult) : CategorizedResults :=
  { stillNeeded := results.filter (fun r => r.stillNeeded)
    fixed := results.filter (fun r => r.status == .FIXED)
    removedFromApi := results.filter (fun r => r.status == .REMOVED_FROM_API) }

/-! ### Concrete fixtures used by counterexamples and witnesses -/

/-- A canonical task carrying nothing but the required id and name. -/
def plainTask : TaskData := { id := "t1", name := "Task One" }

/-- A patch declaring only `kappaRequired`. -/
def kappaOnlyOverride : TaskOverride := { kappaRequired := some (.bool true) }

/-- A patch declaring only `minPlayerLevel: 10`. -/
def mplOverride : TaskOverride := { minPlayerLevel := some (.num 10) }

/-- A patch declaring only `disabled: true`. -/
def disabledOverride : TaskOverride := { disabled := some true }

/-- An objective patch whose `maps` span two distinct base locations. -/
def twoMapObjective : JsonObj :=
  [("maps", Json.arr [Json.obj [("name", Json.str "Factory")],
    Json.obj [("name", Json.str "Customs")]])]

/-- A patch with a two-location objective patch and no top-level `map`. -/
def multiMapOverride : TaskOverride := { objectives := some [("o1", twoMapObjective)] }

/-- A patch with a two-location objective patch and a top-level `map: null`. -/
def multiMapNullOverride : TaskOverride :=
  { map := some .null, objectives := some [("o1", twoMapObjective)] }

/-- A canonical task whose top-level `map` is `null`. -/
def nullMapTask : TaskData := { id := "t1", name := "Task One", map := some .null }

/-- A canonical task with two requirement entries referencing the same task id. -/
def dupReqTask : TaskData :=
  { id := "t1", name := "Task One",
    taskRequirements := some [{ taskId := "A", status := none }, { taskId := "A", status := none }] }

/-- A patch asserting a single requirement on task id `A`. -/
def dupReqOverride : TaskOverride :=
  { taskRequirements := some [{ taskId := "A", status := none }] }

/-- A canonical task with a single requirement entry referencing task id `A`. -/
def singleReqTask : TaskData :=
  { id := "t1", name := "Task One",
    taskRequirements := some [{ taskId := "A", status := none }] }

/-! ### Helper lemmas -/

theorem validateTaskOverride_main (taskId : String) (ov : TaskOverride) (ts : List TaskData)
    (t : TaskData) (hf : ts.find? (fun x => x.id == taskId) = some t)
    (hd : ov.disabled ≠ some true) :
    validateTaskOverride taskId ov ts =
      { id := taskId, name := t.name,
        status :=
          if (FIELD_VALIDATORS.filterMap (fun v => v ov t) ++ objectiveDetails ov t ++
              objectivesAddDetails ov t).any
              (fun d => d.status == DetailStatus.needed || d.status == DetailStatus.check) then
            ValidationStatus.NEEDED
          else ValidationStatus.FIXED,
        stillNeeded :=
          (FIELD_VALIDATORS.filterMap (fun v => v ov t) ++ objectiveDetails ov t ++
            objectivesAddDetails ov t).any
            (fun d => d.status == DetailStatus.needed || d.status == DetailStatus.check),
        details :=
          FIELD_VALIDATORS.filterMap (fun v => v ov t) ++ objectiveDetails ov t ++
            objectivesAddDetails ov t } := by
  unfold validateTaskOverride
  rw [hf]
  dsimp only
  rw [if_neg hd]

theorem validateTaskOverride_good (taskId : String) (ov : TaskOverride) (ts : List TaskData) :
    (validateTaskOverride taskId ov ts).stillNeeded
        = ((validateTaskOverride taskId ov ts).status == ValidationStatus.NEEDED)
      ∧ (validateTaskOverride taskId ov ts).status ≠ ValidationStatus.NOT_FOUND := by
  unfold validateTaskOverride
  cases hf : ts.find? (fun t => t.id == taskId) with
  | none => simp
  | some t =>
    by_cases hd : ov.disabled = some true
    · simp [hd]
    · simp only [if_neg hd]
      cases hb : (FIELD_VALIDATORS.filterMap (fun v => v ov t) ++ objectiveDetails ov t ++
          objectivesAddDetails ov t).any
          (fun d => d.status == DetailStatus.needed || d.status == DetailStatus.check) <;>
        simp [hb]

/-! ### C6 -/

/-- C6: for a task id with no matching canonical record, `validateTaskOverride`
returns the `REMOVED_FROM_API` verdict with `stillNeeded = false` and exactly
one info-level detail, whatever the patch contains. -/
theorem C6_removed_from_api (taskId : String) (ov : TaskOverride) (ts : List TaskData)
    (h : ts.find? (fun t => t.id == taskId) = none) :
    validateTaskOverride taskId ov ts =
      { id := taskId, name := "Unknown", status := .REMOVED_FROM_API, stillNeeded := false,
        details := [{ field := "task", status := .info,
                      message := "Task not found in API - has been removed from tarkov.dev" }] } := by
  unfold validateTaskOverride
  rw [h]

/-- Witness for C6 at a concrete input: the empty canonical set. -/
theorem C6_witness :
    validateTaskOverride "x" kappaOnlyOverride [] =
      { id := "x", name := "Unknown", status := .REMOVED_FROM_API, stillNeeded := false,
        details := [{ field := "task", status := .info,
                      message := "Task not found in API - has been removed from tarkov.dev" }] } :=
  C6_removed_from_api "x" kappaOnlyOverride [] rfl

/-! ### C7 -/

/-- C7: for a patch with `disabled === true` whose canonical record exists,
`validateTaskOverride` returns the terminal `NEEDED` verdict with
`stillNeeded = true` and exactly one check-level detail asking a human to
confirm the upstream removal; no field comparison is performed. -/
theorem C7_disabled_flagged (taskId : String) (ov : TaskOverride) (ts : List TaskData)
    (t : TaskData) (hf : ts.find? (fun x => x.id == taskId) = some t)
    (hd : ov.disabled = some true) :
    validateTaskOverride taskId ov ts =
      { id := taskId, name := t.name, status := .NEEDED, stillNeeded := true,
        details := [{ field := "disabled", status := .check,
                      message := "disabled: task still present in API - verify removal from gameplay or keep override if intentional" }] } := by
  unfold validateTaskOverride
  rw [hf]
  dsimp only
  rw [if_pos hd]

/-- Witness for C7 at a concrete input. -/
theorem C7_witness :
    validateTaskOverride "t1" disabledOverride [plainTask] =
      { id := "t1", name := plainTask.name, status := .NEEDED, stillNeeded := true,
        details := [{ field := "disabled", status := .check,
                      message := "disabled: task still present in API - verify removal from gameplay or keep override if intentional" }] } :=
  C7_disabled_flagged "t1" disabledOverride [plainTask] plainTask (by decide) (by decide)

/-! ### C10 -/

/-- C10: every result of `validateTaskOverride` has status `NEEDED`, `FIXED`
or `REMOVED_FROM_API` — the declared `NOT_FOUND` status is never produced —
and its `stillNeeded` flag is true exactly when its status is `NEEDED`. -/
theorem C10_result_invariant (taskId : String) (ov : TaskOverride) (ts : List TaskData) :
    ((validateTaskOverride taskId ov ts).status = .NEEDED ∨
      (validateTaskOverride taskId ov ts).status = .FIXED ∨
      (validateTaskOverride taskId ov ts).status = .REMOVED_FROM_API)
    ∧ ((validateTaskOverride taskId ov ts).stillNeeded = true ↔
        (validateTaskOverride taskId ov ts).status = .NEEDED) := by
  obtain ⟨h1, h2⟩ := validateTaskOverride_good taskId ov ts
  constructor
  · cases hs : (validateTaskOverride taskId ov ts).status <;> simp_all
  · rw [h1]
    exact beq_iff_eq

/-! ### C8 -/

/-- C8: when the canonical record exists and the patch is not disabled, the
verdict is `NEEDED` exactly when some emitted detail is `needed` or `check`,
is otherwise `FIXED`, and `stillNeeded` holds exactly for `NEEDED`. -/
theorem C8_verdict_aggregation (taskId : String) (ov : TaskOverride) (ts : List TaskData)
    (t : TaskData) (hf : ts.find? (fun x => x.id == taskId) = some t)
    (hd : ov.disabled ≠ some true) :
    ((validateTaskOverride taskId ov ts).status = .NEEDED ↔
      ∃ d ∈ (validateTaskOverride taskId ov ts).details,
        d.status = .needed ∨ d.status = .check)
    ∧ ((validateTaskOverride taskId ov ts).status = .NEEDED ∨
        (validateTaskOverride taskId ov ts).status = .FIXED)
    ∧ ((validateTaskOverride taskId ov ts).stillNeeded = true ↔
        (validateTaskOverride taskId ov ts).status = .NEEDED) := by
  rw [validateTaskOverride_main taskId ov ts t hf hd]
  dsimp only
  cases hb : (FIELD_VALIDATORS.filterMap (fun v => v ov t) ++ objectiveDetails ov t ++
      objectivesAddDetails ov t).any
      (fun d => d.status == DetailStatus.needed || d.status == DetailStatus.check) with
  | false =>
    have hall := List.any_eq_false.mp hb
    refine ⟨?_, ?_, ?_⟩
    · constructor
      · intro h
        simp [hb] at h
      · rintro ⟨d, hdm, hds⟩
        have hc := hall d hdm
        simp at hc
        rcases hds with h | h
        · exact absurd h hc.1
        · exact absurd h hc.2
    · simp [hb]
    · simp [hb]
  | true =>
    obtain ⟨d, hdm, hds⟩ := List.any_eq_true.mp hb
    refine ⟨?_, ?_, ?_⟩
    · constructor
      · intro _
        refine ⟨d, hdm, ?_⟩
        simpa using hds
      · intro _
        simp [hb]
    · simp [hb]
    · simp [hb]

/-- Witness for C8 at a concrete input: a declared `minPlayerLevel` that the
canonical task does not carry. -/
theorem C8_witness :
    ((validateTaskOverride "t1" mplOverride [plainTask]).status = .NEEDED ↔
      ∃ d ∈ (validateTaskOverride "t1" mplOverride [plainTask]).details,
        d.status = .needed ∨ d.status = .check)
    ∧ ((validateTaskOverride "t1" mplOverride [plainTask]).status = .NEEDED ∨
        (validateTaskOverride "t1" mplOverride [plainTask]).status = .FIXED)
    ∧ ((validateTaskOverride "t1" mplOverride [plainTask]).stillNeeded = true ↔
        (validateTaskOverride "t1" mplOverride [plainTask]).status = .NEEDED) :=
  C8_verdict_aggregation "t1" mplOverride [plainTask] plainTask (by decide) (by decide)

/-! ### C2 -/

theorem compareSubsetFields_iff (fs afs : List (String × Json)) :
    compareSubsetFields fs afs = true ↔
      ∀ p ∈ fs, compareSubsetVal p.2 (lookupField afs p.1) = true := by
  induction fs with
  | nil => simp [compareSubsetFields]
  | cons p fs ih =>
    obtain ⟨k, v⟩ := p
    simp [compareSubsetFields, ih, Bool.and_eq_true]

/-- C2: `compareSubset` is vacuously true on an undeclared (`undefined`)
patch value; it equals `valuesEqual` when the patch value is a primitive, an
array or `null`; on a plain mapping it holds exactly when the canonical
value is a plain mapping and every key the patch declares recursively
satisfies `compareSubset` against the canonical value at the same key (keys
absent from the patch are unchecked); and the subset relation is asymmetric
on the spec's concrete example. -/
theorem C2_compareSubset_spec :
    (∀ v, compareSubset none v = true)
    ∧ (∀ v api, (∀ fs, v ≠ Json.obj fs) →
        compareSubset (some v) api = valuesEqual (some v) api)
    ∧ (∀ fs api, compareSubset (some (Json.obj fs)) api = true ↔
        ∃ afs, api = some (Json.obj afs) ∧
          ∀ p ∈ fs, compareSubset (some p.2) (lookupField afs p.1) = true)
    ∧ compareSubset (some (Json.obj [("x", Json.num 1)]))
        (some (Json.obj [("x", Json.num 1), ("y", Json.num 2)])) = true
    ∧ compareSubset (some (Json.obj [("x", Json.num 1), ("y", Json.num 2)]))
        (some (Json.obj [("x", Json.num 1)])) = false := by
  refine ⟨fun v => rfl, ?_, ?_, by decide, by decide⟩
  · intro v api hv
    cases v with
    | obj fs => exact absurd rfl (hv fs)
    | null => rfl
    | bool b => rfl
    | num n => rfl
    | str s => rfl
    | arr xs => rfl
  · intro fs api
    constructor
    · intro h
      match api with
      | none => exact absurd h (by simp [compareSubset, compareSubsetVal])
      | some Json.null => exact absurd h (by simp [compareSubset, compareSubsetVal])
      | some (Json.bool b) => exact absurd h (by simp [compareSubset, compareSubsetVal])
      | some (Json.num n) => exact absurd h (by simp [compareSubset, compareSubsetVal])
      | some (Json.str s) => exact absurd h (by simp [compareSubset, compareSubsetVal])
      | some (Json.arr xs) => exact absurd h (by simp [compareSubset, compareSubsetVal])
      | some (Json.obj afs) =>
        refine ⟨afs, rfl, ?_⟩
        intro p hp
        exact (compareSubsetFields_iff fs afs).mp h p hp
    · rintro ⟨afs, rfl, hall⟩
      show compareSubsetFields fs afs = true
      exact (compareSubsetFields_iff fs afs).mpr hall

/-- Witness for C2: closed instances of the quantified clauses. -/
theorem C2_witness :
    compareSubset none (some (Json.num 7)) = true
    ∧ compareSubset (some (Json.num 3)) none = valuesEqual (some (Json.num 3)) none
    ∧ (compareSubset (some (Json.obj [("x", Json.num 1)]))
        (some (Json.obj [("x", Json.num 1)])) = true ↔
        ∃ afs, (some (Json.obj [("x", Json.num 1)]) : Option Json) = some (Json.obj afs) ∧
          ∀ p ∈ [("x", Json.num 1)], compareSubset (some p.2) (lookupField afs p.1) = true) :=
  ⟨C2_compareSubset_spec.1 (some (Json.num 7)),
   C2_compareSubset_spec.2.1 (Json.num 3) none (fun _ h => Json.noConfusion h),
   C2_compareSubset_spec.2.2.1 [("x", Json.num 1)] (some (Json.obj [("x", Json.num 1)]))⟩

/-! ### C3 -/

/-- C3 counterexample: the claim asserts `valuesEqual([1,2],[2,1]) = false`
(plain arrays preserve order), but `normalizeValue` sorts array elements by
their derived sort key, so the two arrays normalize identically and
`valuesEqual` answers `true`. -/
theorem C3_counterexample :
    valuesEqual (some (Json.arr [Json.num 1, Json.num 2]))
      (some (Json.arr [Json.num 2, Json.num 1])) = true := by decide

/-- C3 amended: `valuesEqual` is insensitive to mapping key order and also
to array element order (array elements are sorted by their derived sort key
during normalization): both the mapping example and the array example
compare equal. -/
theorem C3_order_insensitivity :
    valuesEqual (some (Json.obj [("a", Json.num 1), ("b", Json.num 2)]))
        (some (Json.obj [("b", Json.num 2), ("a", Json.num 1)])) = true
    ∧ valuesEqual (some (Json.arr [Json.num 1, Json.num 2]))
        (some (Json.arr [Json.num 2, Json.num 1])) = true :=
  ⟨by decide, by decide⟩

/-! ### C9 -/

theorem filter_three_perm (l : List ValidationResult)
    (h : ∀ r ∈ l, r.stillNeeded = (r.status == ValidationStatus.NEEDED)
        ∧ r.status ≠ ValidationStatus.NOT_FOUND) :
    (l.filter (fun r => r.stillNeeded) ++
      l.filter (fun r => r.status == ValidationStatus.FIXED) ++
      l.filter (fun r => r.status == ValidationStatus.REMOVED_FROM_API)).Perm l := by
  induction l with
  | nil => simp
  | cons r l ih =>
    obtain ⟨hrs, hrn⟩ := h r (List.mem_cons_self r l)
    have hl := ih (fun x hx => h x (List.mem_cons_of_mem r hx))
    cases hst : r.status with
    | NEEDED =>
      have h1 : r.stillNeeded = true := by rw [hrs, hst]; rfl
      have h2 : (r.status == ValidationStatus.FIXED) = false := by rw [hst]; rfl
      have h3 : (r.status == ValidationStatus.REMOVED_FROM_API) = false := by rw [hst]; rfl
      simp only [List.filter_cons, h1, h2, h3, if_true, if_false, Bool.false_eq_true]
      simp only [List.cons_append]
      exact hl.cons r
    | FIXED =>
      have h1 : r.stillNeeded = false := by rw [hrs, hst]; rfl
      have h2 : (r.status == ValidationStatus.FIXED) = true := by rw [hst]; rfl
      have h3 : (r.status == ValidationStatus.REMOVED_FROM_API) = false := by rw [hst]; rfl
      simp only [List.filter_cons, h1, h2, h3, if_true, if_false, Bool.false_eq_true]
      have heq :
          l.filter (fun r => r.stillNeeded) ++
              (r :: l.filter (fun r => r.status == ValidationStatus.FIXED)) ++
              l.filter (fun r => r.status == ValidationStatus.REMOVED_FROM_API) =
            l.filter (fun r => r.stillNeeded) ++
              r :: (l.filter (fun r => r.status == ValidationStatus.FIXED) ++
                l.filter (fun r => r.status == ValidationStatus.REMOVED_FROM_API)) := by
        simp [List.append_assoc]
      rw [heq]
      refine List.perm_middle.trans ?_
      refine List.Perm.cons r ?_
      rw [← List.append_assoc]
      exact hl
    | REMOVED_FROM_API =>
      have h1 : r.stillNeeded = false := by rw [hrs, hst]; rfl
      have h2 : (r.status == ValidationStatus.FIXED) = false := by rw [hst]; rfl
      have h3 : (r.status == ValidationStatus.REMOVED_FROM_API) = true := by rw [hst]; rfl
      simp only [List.filter_cons, h1, h2, h3, if_true, if_false, Bool.false_eq_true]
      refine List.perm_middle.trans ?_
      exact List.Perm.cons r hl
    | NOT_FOUND => exact absurd hst hrn

/-- C9: on the output of `validateAllOverrides`, the three lists returned by
`categorizeResults` are pairwise disjoint and their concatenation is a
permutation of the input verdict list, so every verdict lands in exactly one
category. -/
theorem C9_categorize_partition (overrides : List (String × TaskOverride))
    (apiTasks : List TaskData) :
    (∀ r ∈ (categorizeResults (validateAllOverrides overrides apiTasks)).stillNeeded,
        r ∉ (categorizeResults (validateAllOverrides overrides apiTasks)).fixed)
    ∧ (∀ r ∈ (categorizeResults (validateAllOverrides overrides apiTasks)).stillNeeded,
        r ∉ (categorizeResults (validateAllOverrides overrides apiTasks)).removedFromApi)
    ∧ (∀ r ∈ (categorizeResults (validateAllOverrides overrides apiTasks)).fixed,
        r ∉ (categorizeResults (validateAllOverrides overrides apiTasks)).removedFromApi)
    ∧ ((categorizeResults (validateAllOverrides overrides apiTasks)).stillNeeded ++
        (categorizeResults (validateAllOverrides overrides apiTasks)).fixed ++
        (categorizeResults (validateAllOverrides overrides apiTasks)).removedFromApi).Perm
        (validateAllOverrides overrides apiTasks) := by
  have hgood : ∀ r ∈ validateAllOverrides overrides apiTasks,
      r.stillNeeded = (r.status == ValidationStatus.NEEDED)
        ∧ r.status ≠ ValidationStatus.NOT_FOUND := by
    intro r hr
    obtain ⟨p, _, rfl⟩ := List.mem_map.mp hr
    exact validateTaskOverride_good p.1 p.2 apiTasks
  refine ⟨?_, ?_, ?_, filter_three_perm _ hgood⟩
  · intro r h1 h2
    simp only [categorizeResults] at h1 h2
    obtain ⟨hm, hp1⟩ := List.mem_filter.mp h1
    obtain ⟨-, hp2⟩ := List.mem_filter.mp h2
    obtain ⟨hg1, -⟩ := hgood r hm
    rw [hg1] at hp1
    have e1 : r.status = ValidationStatus.NEEDED := by simpa using hp1
    have e2 : r.status = ValidationStatus.FIXED := by simpa using hp2
    rw [e1] at e2
    exact ValidationStatus.noConfusion e2
  · intro r h1 h2
    simp only [categorizeResults] at h1 h2
    obtain ⟨hm, hp1⟩ := List.mem_filter.mp h1
    obtain ⟨-, hp2⟩ := List.mem_filter.mp h2
    obtain ⟨hg1, -⟩ := hgood r hm
    rw [hg1] at hp1
    have e1 : r.status = ValidationStatus.NEEDED := by simpa using hp1
    have e2 : r.status = ValidationStatus.REMOVED_FROM_API := by simpa using hp2
    rw [e1] at e2
    exact ValidationStatus.noConfusion e2
  · intro r h1 h2
    simp only [categorizeResults] at h1 h2
    obtain ⟨-, hp1⟩ := List.mem_filter.mp h1
    obtain ⟨-, hp2⟩ := List.mem_filter.mp h2
    have e1 : r.status = ValidationStatus.FIXED := by simpa using hp1
    have e2 : r.status = ValidationStatus.REMOVED_FROM_API := by simpa using hp2
    rw [e1] at e2
    exact ValidationStatus.noConfusion e2

/-- Witness for C9 at a concrete input. -/
theorem C9_witness :
    ((categorizeResults (validateAllOverrides [("t1", mplOverride)] [plainTask])).stillNeeded ++
      (categorizeResults (validateAllOverrides [("t1", mplOverride)] [plainTask])).fixed ++
      (categorizeResults (validateAllOverrides [("t1", mplOverride)] [plainTask])).removedFromApi).Perm
      (validateAllOverrides [("t1", mplOverride)] [plainTask]) :=
  (C9_categorize_partition [("t1", mplOverride)] [plainTask]).2.2.2

/-! ### C4 -/

/-- C4 counterexample: the claim says that with multiple objective maps a
patch declaring no `map` field gets a `needed` detail, but when the canonical
top-level map is `null` or absent `validateMap` emits no detail at all. -/
theorem C4_counterexample :
    hasMultipleObjectiveMaps multiMapOverride plainTask = true
    ∧ multiMapOverride.map = none
    ∧ validateMap multiMapOverride plainTask = none
    ∧ (validateTaskOverride "t1" multiMapOverride [plainTask]).details.filter
        (fun d => d.field == "map") = [] :=
  ⟨by decide, rfl, by decide, by decide⟩

/-- C4 amended: with multiple distinct alias-collapsed objective map keys,
a patch declaring no `map` gets a `needed` detail only when the canonical
map is neither `null` nor absent (otherwise no detail); a declared concrete
non-null map gets `needed` regardless of the canonical value; a declared
`map: null` matching a canonical `null` gets `fixed`. -/
theorem C4_map_special (ov : TaskOverride) (t : TaskData)
    (h : hasMultipleObjectiveMaps ov t = true) :
    (ov.map = none → t.map ≠ some Json.null → t.map ≠ none →
        validateMap ov t = some
          { field := "map", status := .needed,
            message :=
              "map: task has multiple objective maps; add map: null to clear top-level map (API=" ++
                formatOpt t.map ++ ") - STILL NEEDED" })
    ∧ (ov.map = none → (t.map = some Json.null ∨ t.map = none) → validateMap ov t = none)
    ∧ (∀ v, ov.map = some v → v ≠ Json.null →
        validateMap ov t = some
          { field := "map", status := .needed,
            message :=
              "map: task has multiple objective maps; override should be null (API=" ++
                formatOpt t.map ++ ", Override=" ++ formatValue v ++ ") - STILL NEEDED" })
    ∧ (ov.map = some Json.null → t.map = some Json.null →
        validateMap ov t = some
          { field := "map", status := .fixed, message := "map: null - FIXED IN API" }) := by
  refine ⟨?_, ?_, ?_, ?_⟩
  · intro h1 h2 h3
    have hc : ¬(t.map = some Json.null ∨ t.map = none) := by
      rintro (hc | hc)
      · exact h2 hc
      · exact h3 hc
    simp only [validateMap, h, h1, if_true, if_neg hc]
  · intro h1 h2
    simp only [validateMap, h, h1, if_true, if_pos h2]
  · intro v hv hne
    simp only [validateMap, h, hv, if_true, if_neg hne]
  · intro h1 h2
    have hm : compareSubset (some Json.null) (some Json.null) = true := by decide
    simp only [validateMap, h, h1, h2, if_true, if_pos rfl, hm]

/-- Witness for C4 at a concrete input: a two-location objective patch with
`map: null` against a canonical `null` map yields the `fixed` detail. -/
theorem C4_witness :
    validateMap multiMapNullOverride nullMapTask =
      some { field := "map", status := .fixed, message := "map: null - FIXED IN API" } :=
  (C4_map_special multiMapNullOverride nullMapTask (by decide)).2.2.2 rfl rfl

/-! ### C5 -/

/-- C5 counterexample: the claim says the comparison yields `fixed` exactly
when the two ID sets are identical, but with duplicate canonical
requirement entries (`[A, A]` against patch `[A]`) the sets coincide while
the sorted lists differ and the code emits `needed`. -/
theorem C5_counterexample :
    ((filteredApiReqs dupReqTask).map (fun r => r.taskId)).dedup =
        (((dupReqOverride.taskRequirements).getD []).map (fun r => r.taskId)).dedup
    ∧ (validateTaskRequirements dupReqOverride dupReqTask).map (fun d => d.status) =
        some DetailStatus.needed :=
  ⟨by decide, by decide⟩

/-- C5 amended: for a patch declaring `taskRequirements`, canonical entries
whose status marks them active/accepted are dropped first; if the filtered
canonical list is empty and the patch list is non-empty a `needed` detail is
emitted; if the filtered canonical list is non-empty, the sorted lists
(multisets) of referenced task ids are compared, yielding `fixed` exactly
when they coincide and a `needed` detail listing both otherwise. -/
theorem C5_taskRequirements (ov : TaskOverride) (t : TaskData)
    (reqs : List TaskRequirement) (h : ov.taskRequirements = some reqs) :
    (filteredApiReqs t = [] → reqs ≠ [] →
        validateTaskRequirements ov t = some
          { field := "taskRequirements", status := .needed,
            message :=
              "taskRequirements: API=[] (empty), Override has " ++
                toString reqs.length ++ " requirement(s) - STILL NEEDED" })
    ∧ (filteredApiReqs t ≠ [] →
        validateTaskRequirements ov t = some
          (if sortedReqIds (filteredApiReqs t) = sortedReqIds reqs then
            { field := "taskRequirements", status := .fixed,
              message := "taskRequirements: FIXED IN API" }
          else
            { field := "taskRequirements", status := .needed,
              message :=
                "taskRequirements: API has different requirements (" ++
                  String.intercalate ", " (sortedReqIds (filteredApiReqs t)) ++
                  ") vs Override (" ++ String.intercalate ", " (sortedReqIds reqs) ++
                  ") - NEEDS REVIEW" })) := by
  constructor
  · intro h1 h2
    have hc : (filteredApiReqs t).length = 0 ∧ reqs.length > 0 := by
      constructor
      · rw [h1]; rfl
      · exact List.length_pos.mpr h2
    simp only [validateTaskRequirements, h, if_pos hc]
  · intro h1
    have hpos : (filteredApiReqs t).length > 0 := List.length_pos.mpr h1
    have hc : ¬((filteredApiReqs t).length = 0 ∧ reqs.length > 0) := by
      rintro ⟨hz, -⟩
      rw [List.length_eq_zero] at hz
      exact h1 hz
    by_cases he : sortedReqIds (filteredApiReqs t) = sortedReqIds reqs
    · simp only [validateTaskRequirements, h, if_neg hc, if_pos hpos]
      simp [he]
    · simp only [validateTaskRequirements, h, if_neg hc, if_pos hpos]
      simp [he]

/-- Witness for C5 at a concrete input: identical single-element requirement
lists yield the `fixed` detail. -/
theorem C5_witness :
    validateTaskRequirements dupReqOverride singleReqTask =
      some { field := "taskRequirements", status := .fixed,
             message := "taskRequirements: FIXED IN API" } := by
  have h := (C5_taskRequirements dupReqOverride singleReqTask
      [{ taskId := "A", status := none }] rfl).2 (by decide)
  rw [h]
  rw [if_pos (by decide)]

/-! ### C1 -/

/-- A simple compared field: its property name and the two accesses
`override[field]` / `apiTask[field]`. -/
structure SimpleField where
  fname : String
  getO : TaskOverride → Option Json
  getA : TaskData → Option Json

/-- The eight fields `FIELD_VALIDATORS` compares through
`createFieldValidator` (all of its entries except the dedicated `map` and
`taskRequirements` validators). -/
def simpleFields : List SimpleField :=
  [ ⟨"minPlayerLevel", fun o => o.minPlayerLevel, fun t => t.minPlayerLevel⟩,
    ⟨"name", fun o => o.name, fun t => some (.str t.name)⟩,
    ⟨"wikiLink", fun o => o.wikiLink, fun t => t.wikiLink⟩,
    ⟨"experience", fun o => o.experience, fun t => t.experience⟩,
    ⟨"startRewards", fun o => o.startRewards, fun t => t.startRewards⟩,
    ⟨"finishRewards", fun o => o.finishRewards, fun t => t.finishRewards⟩,
    ⟨"factionName", fun o => o.factionName, fun t => t.factionName⟩,
    ⟨"requiredPrestige", fun o => o.requiredPrestige, fun t => t.requiredPrestige⟩ ]

theorem filterMap_cons_toList {α β : Type} (f : α → Option β) (a : α) (l : List α) :
    (a :: l).filterMap f = (f a).toList ++ l.filterMap f := by
  cases h : f a <;> simp [List.filterMap_cons, h]

theorem fieldValidators_filterMap (ov : TaskOverride) (t : TaskData) :
    FIELD_VALIDATORS.filterMap (fun v => v ov t) =
      (createFieldValidator "minPlayerLevel" (fun o => o.minPlayerLevel)
          (fun x => x.minPlayerLevel) ov t).toList ++
      (createFieldValidator "name" (fun o => o.name) (fun x => some (.str x.name)) ov t).toList ++
      (createFieldValidator "wikiLink" (fun o => o.wikiLink) (fun x => x.wikiLink) ov t).toList ++
      (validateMap ov t).toList ++
      (createFieldValidator "experience" (fun o => o.experience) (fun x => x.experience) ov t).toList ++
      (createFieldValidator "startRewards" (fun o => o.startRewards)
          (fun x => x.startRewards) ov t).toList ++
      (createFieldValidator "finishRewards" (fun o => o.finishRewards)
          (fun x => x.finishRewards) ov t).toList ++
      (createFieldValidator "factionName" (fun o => o.factionName)
          (fun x => x.factionName) ov t).toList ++
      (createFieldValidator "requiredPrestige" (fun o => o.requiredPrestige)
          (fun x => x.requiredPrestige) ov t).toList ++
      (validateTaskRequirements ov t).toList := by
  simp only [FIELD_VALIDATORS, filterMap_cons_toList, List.filterMap_nil, List.append_nil,
    List.append_assoc]

theorem createFieldValidator_field (n : String) (gO : TaskOverride → Option Json)
    (gA : TaskData → Option Json) (ov : TaskOverride) (t : TaskData) (d : ValidationDetail)
    (h : createFieldValidator n gO gA ov t = some d) : d.field = n := by
  unfold createFieldValidator at h
  cases hg : gO ov with
  | none => rw [hg] at h; exact Option.noConfusion h
  | some pv =>
    rw [hg] at h
    dsimp only at h
    injection h with h2
    subst h2
    rfl

theorem validateMap_field (ov : TaskOverride) (t : TaskData) (d : ValidationDetail)
    (h : validateMap ov t = some d) : d.field = "map" := by
  unfold validateMap at h
  by_cases hm : hasMultipleObjectiveMaps ov t = true
  · rw [if_pos hm] at h
    cases hov : ov.map with
    | none =>
      rw [hov] at h
      dsimp only at h
      by_cases hc : (t.map = some Json.null ∨ t.map = none)
      · rw [if_pos hc] at h; exact Option.noConfusion h
      · rw [if_neg hc] at h; injection h with h2; subst h2; rfl
    | some v =>
      rw [hov] at h
      dsimp only at h
      by_cases hn : v = Json.null
      · rw [if_pos hn] at h; injection h with h2; subst h2; rfl
      · rw [if_neg hn] at h; injection h with h2; subst h2; rfl
  · rw [if_neg hm] at h
    cases hov : ov.map with
    | none => rw [hov] at h; exact Option.noConfusion h
    | some v =>
      rw [hov] at h
      dsimp only at h
      injection h with h2
      subst h2
      rfl

theorem validateTaskRequirements_field (ov : TaskOverride) (t : TaskData)
    (d : ValidationDetail) (h : validateTaskRequirements ov t = some d) :
    d.field = "taskRequirements" := by
  unfold validateTaskRequirements at h
  cases hr : ov.taskRequirements with
  | none => rw [hr] at h; exact Option.noConfusion h
  | some reqs =>
    rw [hr] at h
    dsimp only at h
    by_cases h1 : (filteredApiReqs t).length = 0 ∧ reqs.length > 0
    · rw [if_pos h1] at h; injection h with h2; subst h2; rfl
    · rw [if_neg h1] at h
      by_cases h2 : (filteredApiReqs t).length > 0
      · rw [if_pos h2] at h
        by_cases h3 : sortedReqIds (filteredApiReqs t) ≠ sortedReqIds reqs
        · rw [if_pos h3] at h; injection h with h4; subst h4; rfl
        · rw [if_neg h3] at h; injection h with h4; subst h4; rfl
      · rw [if_neg h2] at h; exact Option.noConfusion h

theorem objectiveDetails_field (ov : TaskOverride) (t : TaskData) (d : ValidationDetail)
    (h : d ∈ objectiveDetails ov t) : ∃ s, d.field = "objective:" ++ s := by
  unfold objectiveDetails at h
  cases ho : ov.objectives with
  | none => rw [ho] at h; exact absurd h (List.not_mem_nil d)
  | some objs =>
    rw [ho] at h
    dsimp only at h
    obtain ⟨p, _, hd⟩ := List.mem_flatMap.mp h
    cases hfind : (t.objectives.getD []).find? (fun o => objStr o "id" == some p.1) with
    | none =>
      rw [hfind] at hd
      simp only [List.mem_singleton] at hd
      exact ⟨p.1, by rw [hd]⟩
    | some apiObj =>
      rw [hfind] at hd
      obtain ⟨fv, _, hfd⟩ := List.mem_map.mp hd
      refine ⟨p.1 ++ ":" ++ fv.1, ?_⟩
      rw [← hfd]
      dsimp only
      simp only [String.append_assoc]

theorem objectivesAddDetails_field (ov : TaskOverride) (t : TaskData) (d : ValidationDetail)
    (h : d ∈ objectivesAddDetails ov t) : ∃ s, d.field = "objectivesAdd:" ++ s := by
  unfold objectivesAddDetails at h
  cases ho : ov.objectivesAdd with
  | none => rw [ho] at h; exact absurd h (List.not_mem_nil d)
  | some adds =>
    rw [ho] at h
    dsimp only at h
    obtain ⟨a, _, hd⟩ := List.mem_map.mp h
    refine ⟨if a.id ≠ "" then a.id else a.description, ?_⟩
    rw [← hd]
    cases hfind : (t.objectives.getD []).find?
        (fun o => objStr o "id" == some a.id || objStr o "description" == some a.description) with
    | none => rfl
    | some x => rfl

theorem append_head_ne (p s nm : String) (c : Char) (hp : p.data.head? = some c)
    (hn : nm.data.head? ≠ some c) : p ++ s ≠ nm := by
  intro he
  apply hn
  rw [← he]
  rcases hd : p.data with _ | ⟨a, l⟩
  · rw [hd] at hp; exact Option.noConfusion hp
  · have hdata : (p ++ s).data = a :: (l ++ s.data) := by
      rw [String.data_append, hd]; rfl
    rw [hdata]
    simp only [List.head?_cons]
    rw [hd] at hp
    simpa using hp

theorem filter_objectiveDetails_ne (ov : TaskOverride) (t : TaskData) (nm : String)
    (hn : nm.data.head? ≠ some (Char.ofNat 111)) :
    (objectiveDetails ov t).filter (fun d => d.field == nm) = [] := by
  rw [List.filter_eq_nil_iff]
  intro d hd
  obtain ⟨s, hs⟩ := objectiveDetails_field ov t d hd
  simp only [hs, beq_iff_eq]
  exact append_head_ne "objective:" s nm (Char.ofNat 111) (by decide) hn

theorem filter_objectivesAddDetails_ne (ov : TaskOverride) (t : TaskData) (nm : String)
    (hn : nm.data.head? ≠ some (Char.ofNat 111)) :
    (objectivesAddDetails ov t).filter (fun d => d.field == nm) = [] := by
  rw [List.filter_eq_nil_iff]
  intro d hd
  obtain ⟨s, hs⟩ := objectivesAddDetails_field ov t d hd
  simp only [hs, beq_iff_eq]
  exact append_head_ne "objectivesAdd:" s nm (Char.ofNat 111) (by decide) hn

theorem filter_toList_of_ne {p : ValidationDetail → Bool} (o : Option ValidationDetail)
    (h : ∀ d, o = some d → p d = false) : o.toList.filter p = [] := by
  cases o with
  | none => rfl
  | some d => simp [Option.toList, List.filter, h d rfl]

theorem filter_toList_of_eq {p : ValidationDetail → Bool} (o : Option ValidationDetail)
    (h : ∀ d, o = some d → p d = true) : o.toList.filter p = o.toList := by
  cases o with
  | none => rfl
  | some d => simp [Option.toList, List.filter, h d rfl]

theorem filter_createFieldValidator (n m : String) (gO : TaskOverride → Option Json)
    (gA : TaskData → Option Json) (ov : TaskOverride) (t : TaskData) :
    ((createFieldValidator n gO gA ov t).toList.filter (fun d => d.field == m)) =
      if n = m then (createFieldValidator n gO gA ov t).toList else [] := by
  by_cases hnm : n = m
  · rw [if_pos hnm]
    apply filter_toList_of_eq
    intro d hd
    rw [createFieldValidator_field n gO gA ov t d hd, hnm]
    exact beq_self_eq_true m
  · rw [if_neg hnm]
    apply filter_toList_of_ne
    intro d hd
    rw [createFieldValidator_field n gO gA ov t d hd]
    exact beq_eq_false_iff_ne.mpr hnm

theorem filter_validateMap (m : String) (ov : TaskOverride) (t : TaskData) :
    ((validateMap ov t).toList.filter (fun d => d.field == m)) =
      if "map" = m then (validateMap ov t).toList else [] := by
  by_cases hnm : "map" = m
  · rw [if_pos hnm]
    apply filter_toList_of_eq
    intro d hd
    rw [validateMap_field ov t d hd, hnm]
    exact beq_self_eq_true m
  · rw [if_neg hnm]
    apply filter_toList_of_ne
    intro d hd
    rw [validateMap_field ov t d hd]
    exact beq_eq_false_iff_ne.mpr hnm

theorem filter_validateTaskRequirements (m : String) (ov : TaskOverride) (t : TaskData) :
    ((validateTaskRequirements ov t).toList.filter (fun d => d.field == m)) =
      if "taskRequirements" = m then (validateTaskRequirements ov t).toList else [] := by
  by_cases hnm : "taskRequirements" = m
  · rw [if_pos hnm]
    apply filter_toList_of_eq
    intro d hd
    rw [validateTaskRequirements_field ov t d hd, hnm]
    exact beq_self_eq_true m
  · rw [if_neg hnm]
    apply filter_toList_of_ne
    intro d hd
    rw [validateTaskRequirements_field ov t d hd]
    exact beq_eq_false_iff_ne.mpr hnm

theorem createFieldValidator_statuses (n : String) (gO : TaskOverride → Option Json)
    (gA : TaskData → Option Json) (ov : TaskOverride) (t : TaskData) :
    ((createFieldValidator n gO gA ov t).toList).map (fun d => d.status) =
      match gO ov with
      | none => []
      | some pv => [if compareSubset (some pv) (gA t) then DetailStatus.fixed
          else DetailStatus.needed] := by
  cases hg : gO ov with
  | none => simp [createFieldValidator, hg]
  | some pv => simp [createFieldValidator, hg]

/-- C1 counterexample: a patch declaring `kappaRequired` (similarly
`lightkeeperRequired`, `traderRequirements`), with its canonical record
present and not disabled, produces no Field Detail at all: `FIELD_VALIDATORS`
carries no validator for these declared fields. -/
theorem C1_counterexample :
    [plainTask].find? (fun t => t.id == "t1") = some plainTask
    ∧ kappaOnlyOverride.disabled ≠ some true
    ∧ kappaOnlyOverride.kappaRequired = some (Json.bool true)
    ∧ (validateTaskOverride "t1" kappaOnlyOverride [plainTask]).details = [] :=
  ⟨by decide, by decide, rfl, by decide⟩

/-- C1 amended: when the canonical record exists and the patch is not
disabled, exactly one Field Detail is emitted for each declared field among
the eight simple-comparison fields (minPlayerLevel, name, wikiLink,
experience, startRewards, finishRewards, factionName, requiredPrestige),
with status `fixed` when `compareSubset(patchValue, canonicalValue)` holds
and `needed` otherwise; declared `kappaRequired`, `lightkeeperRequired` and
`traderRequirements` fields have no validator and yield no detail; `map` and
`taskRequirements` are handled by dedicated validators. -/
theorem C1_simple_field_details (taskId : String) (ov : TaskOverride) (ts : List TaskData)
    (t : TaskData) (hf : ts.find? (fun x => x.id == taskId) = some t)
    (hd : ov.disabled ≠ some true) :
    (∀ f ∈ simpleFields,
        ((validateTaskOverride taskId ov ts).details.filter
            (fun d => d.field == f.fname)).map (fun d => d.status) =
          match f.getO ov with
          | none => []
          | some pv => [if compareSubset (some pv) (f.getA t) then DetailStatus.fixed
              else DetailStatus.needed])
    ∧ (∀ nm ∈ (["kappaRequired", "lightkeeperRequired", "traderRequirements"] : List String),
        (validateTaskOverride taskId ov ts).details.filter (fun d => d.field == nm) = []) := by
  have hdet : (validateTaskOverride taskId ov ts).details =
      FIELD_VALIDATORS.filterMap (fun v => v ov t) ++ objectiveDetails ov t ++
        objectivesAddDetails ov t := by
    rw [validateTaskOverride_main taskId ov ts t hf hd]
  constructor
  · intro f hmem
    simp only [simpleFields, List.mem_cons, List.not_mem_nil, or_false] at hmem
    rcases hmem with rfl | rfl | rfl | rfl | rfl | rfl | rfl | rfl
    · dsimp only
      rw [hdet, fieldValidators_filterMap]
      simp only [List.filter_append]
      rw [filter_objectiveDetails_ne ov t "minPlayerLevel" (by decide),
          filter_objectivesAddDetails_ne ov t "minPlayerLevel" (by decide)]
      simp [filter_createFieldValidator, filter_validateMap,
        filter_validateTaskRequirements, createFieldValidator_statuses]
    · dsimp only
      rw [hdet, fieldValidators_filterMap]
      simp only [List.filter_append]
      rw [filter_objectiveDetails_ne ov t "name" (by decide),
          filter_objectivesAddDetails_ne ov t "name" (by decide)]
      simp [filter_createFieldValidator, filter_validateMap,
        filter_validateTaskRequirements, createFieldValidator_statuses]
    · dsimp only
      rw [hdet, fieldValidators_filterMap]
      simp only [List.filter_append]
      rw [filter_objectiveDetails_ne ov t "wikiLink" (by decide),
          filter_objectivesAddDetails_ne ov t "wikiLink" (by decide)]
      simp [filter_createFieldValidator, filter_validateMap,
        filter_validateTaskRequirements, createFieldValidator_statuses]
    · dsimp only
      rw [hdet, fieldValidators_filterMap]
      simp only [List.filter_append]
      rw [filter_objectiveDetails_ne ov t "experience" (by decide),
          filter_objectivesAddDetails_ne ov t "experience" (by decide)]
      simp [filter_createFieldValidator, filter_validateMap,
        filter_validateTaskRequirements, createFieldValidator_statuses]
    · dsimp only
      rw [hdet, fieldValidators_filterMap]
      simp only [List.filter_append]
      rw [filter_objectiveDetails_ne ov t "startRewards" (by decide),
          filter_objectivesAddDetails_ne ov t "startRewards" (by decide)]
      simp [filter_createFieldValidator, filter_validateMap,
        filter_validateTaskRequirements, createFieldValidator_statuses]
    · dsimp only
      rw [hdet, fieldValidators_filterMap]
      simp only [List.filter_append]
      rw [filter_objectiveDetails_ne ov t "finishRewards" (by decide),
          filter_objectivesAddDetails_ne ov t "finishRewards" (by decide)]
      simp [filter_createFieldValidator, filter_validateMap,
        filter_validateTaskRequirements, createFieldValidator_statuses]
    · dsimp only
      rw [hdet, fieldValidators_filterMap]
      simp only [List.filter_append]
      rw [filter_objectiveDetails_ne ov t "factionName" (by decide),
          filter_objectivesAddDetails_ne ov t "factionName" (by decide)]
      simp [filter_createFieldValidator, filter_validateMap,
        filter_validateTaskRequirements, createFieldValidator_statuses]
    · dsimp only
      rw [hdet, fieldValidators_filterMap]
      simp only [List.filter_append]
      rw [filter_objectiveDetails_ne ov t "requiredPrestige" (by decide),
          filter_objectivesAddDetails_ne ov t "requiredPrestige" (by decide)]
      simp [filter_createFieldValidator, filter_validateMap,
        filter_validateTaskRequirements, createFieldValidator_statuses]
  · intro nm hmem
    simp only [List.mem_cons, List.not_mem_nil, or_false] at hmem
    rcases hmem with rfl | rfl | rfl
    · rw [hdet, fieldValidators_filterMap]
      simp only [List.filter_append]
      rw [filter_objectiveDetails_ne ov t "kappaRequired" (by decide),
          filter_objectivesAddDetails_ne ov t "kappaRequired" (by decide)]
      simp [filter_createFieldValidator, filter_validateMap,
        filter_validateTaskRequirements, createFieldValidator_statuses]
    · rw [hdet, fieldValidators_filterMap]
      simp only [List.filter_append]
      rw [filter_objectiveDetails_ne ov t "lightkeeperRequired" (by decide),
          filter_objectivesAddDetails_ne ov t "lightkeeperRequired" (by decide)]
      simp [filter_createFieldValidator, filter_validateMap,
        filter_validateTaskRequirements, createFieldValidator_statuses]
    · rw [hdet, fieldValidators_filterMap]
      simp only [List.filter_append]
      rw [filter_objectiveDetails_ne ov t "traderRequirements" (by decide),
          filter_objectivesAddDetails_ne ov t "traderRequirements" (by decide)]
      simp [filter_createFieldValidator, filter_validateMap,
        filter_validateTaskRequirements, createFieldValidator_statuses]

/-- Witness for C1 at a concrete input: a declared `minPlayerLevel: 10`
against a canonical task without that field yields one `needed` detail. -/
theorem C1_witness :
    ((validateTaskOverride "t1" mplOverride [plainTask]).details.filter
        (fun d => d.field == "minPlayerLevel")).map (fun d => d.status) =
      [DetailStatus.needed] := by
  have h := (C1_simple_field_details "t1" mplOverride [plainTask] plainTask (by decide)
      (by decide)).1 ⟨"minPlayerLevel", fun o => o.minPlayerLevel, fun x => x.minPlayerLevel⟩
      (List.mem_cons_self _ _)
  rw [h]
  decide
